import Mathlib

/-!
A shallow embedding of the resilient-call logic of the icc_rust_docs repository.

The embedded code lives in
  src/src/caller/src/lib.rs              (call_increment, stubborn_set)
  src/src/icc_rust_docs_backend/src/lib.rs  (icp_transfer, icrc1_get_fee, icrc1_transfer)
  src/src/new_caller/src/lib.rs          (increment_twice, used only for the counter semantics)

Principals, method names and payload encodings are kept as plain strings or
naturals: the Candid encoding is an external collaborator, and two equal Lean
values encode to equal argument bytes. IC time is a natural number of
nanoseconds. The remote-call facility (the Rust ic-cdk Call API) is external
to the repository; the outcome of one call attempt is passed to each embedded
function as an explicit value, and loops are driven by the finite list of
outcomes the environment produces, one outcome per attempt.
-/

namespace IccRustDocs

/-- Equality of Rust Result values (embedded as Except) is decidable when it
is on both components. -/
instance {ε α : Type} [DecidableEq ε] [DecidableEq α] : DecidableEq (Except ε α) := fun a b =>
  match a, b with
  | .ok x, .ok y =>
    if h : x = y then .isTrue (congrArg Except.ok h)
    else .isFalse (fun hc => h (Except.ok.inj hc))
  | .error x, .error y =>
    if h : x = y then .isTrue (congrArg Except.error h)
    else .isFalse (fun hc => h (Except.error.inj hc))
  | .ok _, .error _ => .isFalse (fun hc => Except.noConfusion hc)
  | .error _, .ok _ => .isFalse (fun hc => Except.noConfusion hc)

/-- The reject codes the source matches on (caller lib.rs lines 76-103):
SysFatal, SysTransient and CanisterReject. -/
inductive RejectCode where
  | sysFatal
  | sysTransient
  | canisterReject
deriving DecidableEq

/-- A rejection as observed through the ic-cdk CallRejected payload: its
reject code, whether it was raised synchronously (before the request left the
local boundary), and its reject message. -/
structure Rejection where
  code : RejectCode
  sync : Bool
  msg : String
deriving DecidableEq

/-- The OutcomeUnknown / StateUnknown variants of the source (caller lib.rs
lines 119-145, backend lib.rs lines 72-79): the response arrived but could not
be decoded, the callee trapped, or the system gave up waiting (SysUnknown). -/
inductive OutcomeUnknown where
  | candidDecodingFailed (err : String) (payload : String)
  | canisterError (err : String)
  | sysUnknown
deriving DecidableEq

/-- The CallError type of the ic-cdk as matched by the source: either the call
was rejected (and provably not executed), or the outcome is unknown. -/
inductive CallError where
  | callRejected (r : Rejection)
  | outcomeUnknown (u : OutcomeUnknown)
deriving DecidableEq

/-- The closed classification taxonomy of spec section 4.1. -/
inductive FailureKind where
  | fatal
  | syncTransient
  | asyncTransient
  | calleeError
  | decodeFailure
  | executionUnknown
deriving DecidableEq

/-- The classification of a failed call outcome, read off the exhaustive match
of call_increment (caller lib.rs lines 76-145), whose arms name the kinds in
their messages: SysFatal is the fatal error arm, a synchronous SysTransient is
the synchronous transient arm, an asynchronous SysTransient is the
asynchronous transient arm, CanisterReject and a callee trap are callee
errors, a Candid decoding failure is a decode failure, and SysUnknown is the
execution-unknown case. -/
def classify : CallError → FailureKind
  | .callRejected r =>
    match r.code with
    | .sysFatal => .fatal
    | .sysTransient => if r.sync then .syncTransient else .asyncTransient
    | .canisterReject => .calleeError
  | .outcomeUnknown (.candidDecodingFailed _ _) => .decodeFailure
  | .outcomeUnknown (.canisterError _) => .calleeError
  | .outcomeUnknown .sysUnknown => .executionUnknown

/-- Modelled from the spec: the ic-cdk predicate CallRejected.immediately_retryable
is library code, not part of this repository. Per spec section 4.1 and the
source comments (caller lib.rs lines 81-96), exactly the asynchronous
transient rejections are immediately retryable. -/
def Rejection.immediately_retryable (r : Rejection) : Bool :=
  r.code == RejectCode.sysTransient && !r.sync

/-- What one loop iteration decides to do with a failed attempt: run the loop
body again right away (the continue statement of the source), or stop the
loop, returning the given error message to the application. -/
inductive StepDecision where
  | retryNow
  | stop (msg : String)
deriving DecidableEq

/-- The decision stubborn_set takes on a failed attempt, at IC time now
against its precomputed deadline (caller lib.rs lines 171-233): an
immediately retryable rejection and a SysUnknown outcome retry unless the
deadline passed; every other error stops the loop with a message. -/
def stubborn_set_decision (now deadline : Nat) : CallError → StepDecision
  | .callRejected r =>
    if r.immediately_retryable then
      if deadline < now then .stop "Timed out while trying to set the value"
      else .retryNow
    else .stop ("Failed to get the value and cannot retry: " ++ r.msg)
  | .outcomeUnknown (.candidDecodingFailed err payload) =>
    .stop ("The counter canister returned an non-unit response: " ++ err ++ " " ++ payload)
  | .outcomeUnknown (.canisterError err) =>
    .stop ("The counter canister returned an error while trying to get the value: " ++ err)
  | .outcomeUnknown .sysUnknown =>
    if deadline < now then .stop "Timed out while trying to set the value"
    else .retryNow

/-- The result of one message execution: either the method returns a value to
its caller, or it traps (a panic or unreachable in the Rust source), in which
case no value is returned. -/
inductive MethodResult (α : Type) where
  | ret (value : α)
  | trap (msg : String)
deriving DecidableEq

/-- The whole retry loop of stubborn_set (caller lib.rs lines 159-235), driven
by the finite list of raw outcomes the system produces, one per attempt, each
paired with the IC time observed at the following decision point. Returns the
final method result together with the number of call attempts consumed, or
none when the outcome list is exhausted while the loop still wants to retry
(the next attempt is still in flight). The success arm of the source is a
return of the set value to the application (line 169). -/
def stubborn_set_run (deadline : Nat) :
    List (Except CallError Unit × Nat) → Option (MethodResult (Except String Unit) × Nat)
  | [] => none
  | (o, now) :: rest =>
    match o with
    | .ok _ => some (.ret (.ok ()), 1)
    | .error e =>
      match stubborn_set_decision now deadline e with
      | .stop msg => some (.ret (.error msg), 1)
      | .retryNow =>
        match stubborn_set_run deadline rest with
        | none => none
        | some (res, n) => some (res, n + 1)

/-- One call attempt as the source constructs it: the target principal, the
method name, and the call argument (whose Candid encoding is a function of
the value). -/
structure CallAttempt (π : Type) where
  target : String
  method : String
  payload : π
deriving DecidableEq

/-- The list of call attempts stubborn_set issues on a given outcome list:
every iteration of the loop constructs its attempt from the loop-invariant
bindings counter, the method name set, and value (caller lib.rs lines
165-167), and a further attempt is issued exactly when the decision on the
previous outcome is retryNow. -/
def stubborn_set_attempts (counter : String) (value : Nat) (deadline : Nat) :
    List (Except CallError Unit × Nat) → List (CallAttempt Nat)
  | [] => []
  | (Except.ok _, _) :: _ => [⟨counter, "set", value⟩]
  | (Except.error e, now) :: rest =>
    ⟨counter, "set", value⟩ ::
      match stubborn_set_decision now deadline e with
      | .stop _ => []
      | .retryNow => stubborn_set_attempts counter value deadline rest

/-- The decision call_increment takes on a CallRejected error (caller lib.rs
lines 76-103): every reject code is reported back as an error message; in
particular the asynchronous transient arm returns the error, with the comment
that for simplicity no retry is attempted. -/
def call_increment_rejected_decision (r : Rejection) : StepDecision :=
  match r.code with
  | .sysFatal => .stop ("The call was rejected with a fatal error: " ++ r.msg)
  | .sysTransient =>
    if r.sync then
      .stop ("The call was rejected with a synchronous transient error: " ++ r.msg)
    else
      .stop ("The call was rejected with an asynchronous transient error: " ++ r.msg)
  | .canisterReject => .stop ("The call made it to the canister but was rejected: " ++ r.msg)

/-- The decision call_increment takes on an OutcomeUnknown error (caller
lib.rs lines 119-145): a decoding failure and a callee trap are reported
back, and the SysUnknown arm checks the deadline and otherwise issues a
continue, i.e. retries. The deadline binding does not exist in that function
(lines 104-116 are an orphaned duplicate of the stubborn_set retry arm), so
the time and deadline are taken here as explicit arguments. -/
def call_increment_unknown_decision (now deadline : Nat) : OutcomeUnknown → StepDecision
  | .candidDecodingFailed err payload =>
    .stop ("The counter canister returned an non-unit response: " ++ err ++ " " ++ payload)
  | .canisterError err =>
    .stop ("The counter canister returned an error while trying to get the value: " ++ err)
  | .sysUnknown =>
    if deadline < now then .stop "Timed out while trying to set the value"
    else .retryNow

/-- An operation on the counter state is idempotent when running it twice
leaves the same end state as running it once (spec glossary). -/
def Idempotent (f : Nat → Nat) : Prop :=
  ∀ s : Nat, f (f s) = f s

/-- Modelled from the spec: the counter callee is not part of this repository.
Its increment method adds one to the counter value, as the comments of
increment_twice state (new_caller lib.rs lines 51-53: after two increments the
counter should read initial + 2). -/
def increment_exec (s : Nat) : Nat := s + 1

/-- Modelled from the spec: the counter callee is not part of this repository.
Its set method overwrites the counter with the given value (caller lib.rs
lines 222-223: even if it was already executed, there is no harm in executing
it again). -/
def set_exec (v : Nat) : Nat → Nat := fun _ => v

/-- The wait discipline chosen for a call (spec section 3): a bounded-wait
call is guaranteed a response within the timeout at the cost of the
SysUnknown outcome, an unbounded-wait call waits indefinitely for a
definitive outcome. -/
inductive WaitDiscipline where
  | bounded (timeout : Nat)
  | unbounded
deriving DecidableEq

/-- A raw outcome of one icp_transfer ledger call: either the call completes
with transfer result of the ledger (a block index, or a ledger-level transfer
error), or it fails with a CallError. -/
abbrev IcpOutcome := Except CallError (Except String Nat)

/-- Modelled from the spec: the wait-discipline contract of the remote-call
facility is library behaviour, not part of this repository. Under the
unbounded discipline the facility never produces the SysUnknown outcome
(spec section 3, and the comments at backend lib.rs lines 47-49 and caller
lib.rs lines 218-220); under the bounded discipline every outcome is
possible. -/
def valid_outcome : WaitDiscipline → IcpOutcome → Prop
  | .unbounded, o => o ≠ .error (.outcomeUnknown .sysUnknown)
  | .bounded _, _ => True

/-- icp_transfer issues its ledger call with Call::unbounded_wait (backend
lib.rs line 50). -/
def icp_transfer_discipline : WaitDiscipline := .unbounded

/-- The hard-coded owner principal of the backend canister (backend lib.rs
line 11). -/
def OWNER : String := "gl542-2r2m3-znmmo-cjhz7-p332z-mbe6x-hmrnu-rv37c-mncas-i46u2-sqe"

/-- Which arm of the icp_transfer match ran, including the early owner check. -/
inductive IcpBranch where
  | notOwner
  | transferOk
  | ledgerErr
  | rejected
  | decodeTrap
  | ledgerTrap
  | sysUnknownBranch
deriving DecidableEq

/-- What one invocation of icp_transfer does: the arm taken, the method
result handed back (or the trap that ends the execution), and how many calls
were issued to the ledger. -/
structure IcpResult where
  branch : IcpBranch
  result : MethodResult (Except String Unit)
  ledgerCalls : Nat
deriving DecidableEq

/-- The body of icp_transfer (backend lib.rs lines 18-81): a caller other
than the owner is turned away before any call is made; otherwise exactly one
unbounded-wait ledger call is issued and its outcome is matched. A ledger
error and a rejection come back as error values; a decoding failure and a
ledger trap are answered with a panic, and the SysUnknown arm is the
unreachable panic of line 79. The rejection arm of the source formats the
unbound name e (line 69, a draft slip); the rejection message itself is used
here. -/
def icp_transfer (caller : String) (o : IcpOutcome) : IcpResult :=
  if caller ≠ OWNER then
    ⟨.notOwner, .ret (.error "Only the owner can ask to transfer ICP"), 0⟩
  else
    match o with
    | .ok (.ok _) => ⟨.transferOk, .ret (.ok ()), 1⟩
    | .ok (.error e) => ⟨.ledgerErr, .ret (.error ("Ledger returned an error: " ++ e)), 1⟩
    | .error (.callRejected r) =>
      ⟨.rejected, .ret (.error ("Error calling ledger canister: " ++ r.msg)), 1⟩
    | .error (.outcomeUnknown (.candidDecodingFailed m _)) =>
      ⟨.decodeTrap, .trap ("Decoding failed: " ++ m), 1⟩
    | .error (.outcomeUnknown (.canisterError err)) =>
      ⟨.ledgerTrap, .trap ("Ledger crashed: " ++ err), 1⟩
    | .error (.outcomeUnknown .sysUnknown) =>
      ⟨.sysUnknownBranch, .trap "SysUnknown errors cannot happen when using", 1⟩

/-- One iteration of the icrc1_get_fee loop (backend lib.rs lines 86-125):
none means the source executes continue and immediately runs the next
iteration; some r means the loop returns r. The retry condition of the
source is literally is_sync together with reject code SysTransient, and the
SysUnknown arm also continues. -/
def icrc1_get_fee_iter : Except CallError Nat → Option (Except String Nat)
  | .ok fee => some (.ok fee)
  | .error (.callRejected r) =>
    if r.sync && (r.code == RejectCode.sysTransient) then none
    else some (.error ("Irrecoverable error: " ++ r.msg))
  | .error (.outcomeUnknown .sysUnknown) => none
  | .error (.outcomeUnknown (.candidDecodingFailed m _)) =>
    some (.error ("Unable to decode the fee: " ++ m))
  | .error (.outcomeUnknown (.canisterError err)) =>
    some (.error ("Ledger crashed: " ++ err))

/-- The transfer argument icrc1_transfer builds once, before its loop
(backend lib.rs lines 139-148); the constant None fields are omitted. The
created_at_time field is the IC time read once at construction; the recipient
field is named to in the source. -/
structure TransferArg where
  to_account : String
  fee : Nat
  created_at_time : Nat
  amount : Nat
deriving DecidableEq

/-- A raw outcome of one icrc1_transfer ledger call. -/
abbrev Icrc1Outcome := Except CallError (Except String Nat)

/-- One iteration of the icrc1_transfer loop (backend lib.rs lines 150-191):
none means the source executes continue. SysUnknown continues; a rejection
continues under the same is_sync and SysTransient condition as
icrc1_get_fee; everything else returns. -/
def icrc1_transfer_iter : Icrc1Outcome → Option (Except String Unit)
  | .ok (.ok _) => some (.ok ())
  | .ok (.error e) => some (.error ("Ledger returned an error: " ++ e))
  | .error (.outcomeUnknown .sysUnknown) => none
  | .error (.callRejected r) =>
    if r.sync && (r.code == RejectCode.sysTransient) then none
    else some (.error ("Irrecoverable error: " ++ r.msg))
  | .error (.outcomeUnknown (.candidDecodingFailed m _)) =>
    some (.error ("Unable to decode the ledger response: " ++ m))
  | .error (.outcomeUnknown (.canisterError err)) =>
    some (.error ("Ledger crashed: " ++ err))

/-- The list of call attempts the icrc1_transfer loop issues on a given
outcome list: every iteration constructs its attempt from the loop-invariant
ledger principal, the method name, and the arg built once before the loop
(backend lib.rs lines 151-153), and a further attempt is issued exactly when
the iteration decides to continue. -/
def icrc1_transfer_attempts (ledger : String) (arg : TransferArg) :
    List Icrc1Outcome → List (CallAttempt TransferArg)
  | [] => []
  | o :: rest =>
    ⟨ledger, "icrc1_transfer", arg⟩ ::
      match icrc1_transfer_iter o with
      | some _ => []
      | none => icrc1_transfer_attempts ledger arg rest

/-- A failed outcome on which the stubborn_set loop keeps going (before the
deadline): an immediately retryable rejection, or a SysUnknown outcome (the
latter retried because the set operation is idempotent, caller lib.rs lines
221-230). -/
def retryable_or_unknown : CallError → Bool
  | .callRejected r => r.immediately_retryable
  | .outcomeUnknown .sysUnknown => true
  | .outcomeUnknown _ => false

/-! Helper lemmas shared by the claim theorems. -/

/-- Appending to a string of positive length keeps the length positive. -/
theorem append_len_pos (s t : String) (h : 0 < s.length) : 0 < (s ++ t).length := by
  rw [String.length_append]
  omega

/-- A string of positive length is not the empty string. -/
theorem ne_empty_of_len_pos (s : String) (h : 0 < s.length) : s ≠ "" := by
  intro he
  rw [he] at h
  exact absurd h (by decide)

/-- The stubborn_set loop decides retryNow only when the deadline has not
passed: both retry branches of the source sit under the deadline guard. -/
theorem retry_imp_within_deadline :
    ∀ (now deadline : Nat) (e : CallError),
      stubborn_set_decision now deadline e = .retryNow → now ≤ deadline := by
  intro now deadline e h
  rcases e with r | u
  · simp only [stubborn_set_decision] at h
    by_cases hr : r.immediately_retryable = true
    · rw [if_pos hr] at h
      by_cases hx : deadline < now
      · rw [if_pos hx] at h
        exact StepDecision.noConfusion h
      · omega
    · rw [if_neg hr] at h
      exact StepDecision.noConfusion h
  · rcases u with ⟨m, p⟩ | err | _
    · simp only [stubborn_set_decision] at h
      exact StepDecision.noConfusion h
    · simp only [stubborn_set_decision] at h
      exact StepDecision.noConfusion h
    · simp only [stubborn_set_decision] at h
      by_cases hx : deadline < now
      · rw [if_pos hx] at h
        exact StepDecision.noConfusion h
      · omega

/-- On a retryable rejection or a SysUnknown outcome, the stubborn_set loop
decides retryNow whenever the deadline has not passed. -/
theorem decision_retries_of_retryable :
    ∀ (now deadline : Nat) (e : CallError),
      retryable_or_unknown e = true → now ≤ deadline →
      stubborn_set_decision now deadline e = .retryNow := by
  intro now deadline e he hle
  rcases e with r | u
  · simp only [retryable_or_unknown] at he
    simp only [stubborn_set_decision]
    rw [if_pos he, if_neg (by omega)]
  · rcases u with ⟨m, p⟩ | err | _
    · simp only [retryable_or_unknown] at he
      exact Bool.noConfusion he
    · simp only [retryable_or_unknown] at he
      exact Bool.noConfusion he
    · simp only [stubborn_set_decision]
      rw [if_neg (by omega)]

/-- Every terminating stubborn_set run consumes at least one attempt. -/
theorem run_attempts_pos :
    ∀ (deadline : Nat) (trace : List (Except CallError Unit × Nat))
      (res : MethodResult (Except String Unit)) (n : Nat),
      stubborn_set_run deadline trace = some (res, n) → 1 ≤ n := by
  intro deadline trace
  induction trace with
  | nil =>
    intro res n h
    simp [stubborn_set_run] at h
  | cons q rest ih =>
    intro res n h
    obtain ⟨o, now⟩ := q
    rcases o with e | v
    · simp only [stubborn_set_run] at h
      cases hd : stubborn_set_decision now deadline e with
      | stop msg =>
        rw [hd] at h
        simp at h
        omega
      | retryNow =>
        rw [hd] at h
        cases hr : stubborn_set_run deadline rest with
        | none =>
          rw [hr] at h
          simp at h
        | some q' =>
          obtain ⟨res', m⟩ := q'
          rw [hr] at h
          simp at h
          omega
    · simp only [stubborn_set_run] at h
      simp at h
      omega

/-- Every stop message of the stubborn_set loop is a nonempty diagnostic. -/
theorem stop_msg_nonempty :
    ∀ (now deadline : Nat) (e : CallError) (msg : String),
      stubborn_set_decision now deadline e = .stop msg → msg ≠ "" := by
  intro now deadline e msg h
  rcases e with r | u
  · simp only [stubborn_set_decision] at h
    by_cases hr : r.immediately_retryable = true
    · rw [if_pos hr] at h
      by_cases hx : deadline < now
      · rw [if_pos hx] at h
        injection h with h'
        subst h'
        decide
      · rw [if_neg hx] at h
        exact StepDecision.noConfusion h
    · rw [if_neg hr] at h
      injection h with h'
      subst h'
      exact ne_empty_of_len_pos _ (append_len_pos _ _ (by decide))
  · rcases u with ⟨m, p⟩ | err | _
    · simp only [stubborn_set_decision] at h
      injection h with h'
      subst h'
      exact ne_empty_of_len_pos _ (append_len_pos _ _ (append_len_pos _ _ (append_len_pos _ _ (by decide))))
    · simp only [stubborn_set_decision] at h
      injection h with h'
      subst h'
      exact ne_empty_of_len_pos _ (append_len_pos _ _ (by decide))
    · simp only [stubborn_set_decision] at h
      by_cases hx : deadline < now
      · rw [if_pos hx] at h
        injection h with h'
        subst h'
        decide
      · rw [if_neg hx] at h
        exact StepDecision.noConfusion h

/-- A rejection classified as an asynchronous transient is exactly an
immediately retryable one. -/
theorem classify_async_imp_retryable :
    ∀ r : Rejection, classify (.callRejected r) = .asyncTransient →
      r.immediately_retryable = true := by
  intro r h
  obtain ⟨c, s, m⟩ := r
  cases c with
  | sysFatal => simp [classify] at h
  | canisterReject => simp [classify] at h
  | sysTransient =>
    cases s with
    | true => simp [classify] at h
    | false => rfl

/-! The claim theorems. -/

/-- Claim C1 (code divergence): call_increment retries on an ExecutionUnknown
outcome even though the increment operation is not idempotent. At IC time 0
with deadline 1 (deadline not expired) the SysUnknown arm of call_increment
issues a continue (retryNow); the outcome classifies as executionUnknown, and
the increment operation is not idempotent, so the claim requires GiveUp
there. -/
theorem call_increment_retries_on_unknown_despite_nonidempotent :
    call_increment_unknown_decision 0 1 OutcomeUnknown.sysUnknown = StepDecision.retryNow ∧
    classify (.outcomeUnknown .sysUnknown) = FailureKind.executionUnknown ∧
    ¬ Idempotent increment_exec := by
  refine ⟨rfl, rfl, fun h => ?_⟩
  have h0 := h 0
  simp [increment_exec] at h0

/-- Claim C2: in stubborn_set, a decision taken when the deadline clock
reports expired is never retryNow, and in every terminating run all attempts
after the first were issued from a decision point whose observed time was
within the deadline. -/
theorem stubborn_set_no_retry_after_deadline :
    (∀ (deadline now : Nat) (e : CallError), deadline < now →
       stubborn_set_decision now deadline e ≠ StepDecision.retryNow) ∧
    (∀ (deadline : Nat) (trace : List (Except CallError Unit × Nat))
       (res : MethodResult (Except String Unit)) (n : Nat),
       stubborn_set_run deadline trace = some (res, n) →
       ∀ p ∈ trace.take (n - 1), p.2 ≤ deadline) := by
  constructor
  · intro deadline now e hex h
    have := retry_imp_within_deadline now deadline e h
    omega
  · intro deadline trace
    induction trace with
    | nil =>
      intro res n h
      simp [stubborn_set_run] at h
    | cons q rest ih =>
      intro res n h
      obtain ⟨o, now⟩ := q
      rcases o with e | v
      · simp only [stubborn_set_run] at h
        cases hd : stubborn_set_decision now deadline e with
        | stop msg =>
          rw [hd] at h
          simp at h
          obtain ⟨h1, h2⟩ := h
          intro p hp
          rw [← h2] at hp
          simp at hp
        | retryNow =>
          rw [hd] at h
          cases hr : stubborn_set_run deadline rest with
          | none =>
            rw [hr] at h
            simp at h
          | some q' =>
            obtain ⟨res', m⟩ := q'
            rw [hr] at h
            simp at h
            obtain ⟨h1, h2⟩ := h
            have hm : 1 ≤ m := run_attempts_pos deadline rest res' m hr
            have hnow : now ≤ deadline := retry_imp_within_deadline now deadline e hd
            have htake : ((Except.error e, now) :: rest).take (n - 1)
                = (Except.error e, now) :: rest.take (m - 1) := by
              obtain ⟨k, rfl⟩ : ∃ k, m = k + 1 := ⟨m - 1, by omega⟩
              rw [← h2]
              simp
            rw [htake]
            intro p hp
            rcases List.mem_cons.1 hp with rfl | hp'
            · exact hnow
            · exact ih res' m hr p hp'
      · simp only [stubborn_set_run] at h
        simp at h
        obtain ⟨h1, h2⟩ := h
        intro p hp
        rw [← h2] at hp
        simp at hp

/-- Witness for C2 at a concrete expired decision point. -/
theorem stubborn_set_no_retry_after_deadline_witness :
    stubborn_set_decision 7 3 (.outcomeUnknown .sysUnknown) ≠ StepDecision.retryNow :=
  stubborn_set_no_retry_after_deadline.1 3 7 (.outcomeUnknown .sysUnknown) (by decide)

/-- Claim C3: under the unbounded wait discipline the facility never yields
the SysUnknown outcome, so the unreachable SysUnknown arm of icp_transfer is
never taken. -/
theorem icp_transfer_sysunknown_branch_unreachable :
    ∀ (caller : String) (o : IcpOutcome),
      valid_outcome icp_transfer_discipline o →
      (icp_transfer caller o).branch ≠ IcpBranch.sysUnknownBranch := by
  intro caller o hv
  have hv' : o ≠ .error (.outcomeUnknown .sysUnknown) := hv
  unfold icp_transfer
  split
  · simp
  · rcases o with e | v
    · rcases e with r | u
      · simp
      · rcases u with ⟨m, p⟩ | err | _
        · simp
        · simp
        · exact absurd rfl hv'
    · rcases v with em | i
      · simp
      · simp

/-- Witness for C3 at a concrete valid unbounded-wait outcome. -/
theorem icp_transfer_sysunknown_branch_unreachable_witness :
    (icp_transfer "2vxsx-fae" (.ok (.ok 3))).branch ≠ IcpBranch.sysUnknownBranch :=
  icp_transfer_sysunknown_branch_unreachable "2vxsx-fae" (.ok (.ok 3))
    (by simp [valid_outcome, icp_transfer_discipline])

/-- Claim C4 (code divergence): on a synchronous transient rejection, both
icrc1_get_fee and icrc1_transfer execute continue, i.e. loop locally right
away (the iteration result none), although their own comments say only
non-synchronous transient rejections are sensibly retried and the claim
requires the caller not to loop locally on this kind. -/
theorem icrc1_sync_transient_retried_locally :
    icrc1_get_fee_iter (.error (.callRejected ⟨.sysTransient, true, "queue full"⟩)) = none ∧
    icrc1_transfer_iter (.error (.callRejected ⟨.sysTransient, true, "queue full"⟩)) = none ∧
    classify (.callRejected ⟨.sysTransient, true, "queue full"⟩) = FailureKind.syncTransient :=
  ⟨rfl, rfl, rfl⟩

/-- Counterexample to claim C5 as stated: call_increment answers an
asynchronous transient rejection (kind asyncTransient, no deadline involved)
with an error return, not with a retry. -/
theorem call_increment_async_transient_not_retried :
    classify (.callRejected ⟨.sysTransient, false, "overloaded"⟩) = FailureKind.asyncTransient ∧
    call_increment_rejected_decision ⟨.sysTransient, false, "overloaded"⟩ =
      .stop ("The call was rejected with an asynchronous transient error: " ++ "overloaded") ∧
    call_increment_rejected_decision ⟨.sysTransient, false, "overloaded"⟩ ≠
      StepDecision.retryNow := by
  refine ⟨rfl, rfl, ?_⟩
  decide

/-- Claim C5 as amended: in the stubborn_set retry loop, every rejection
classified asyncTransient taken at a decision point within the deadline
yields retryNow; the decision consults no idempotency information, so it is
the same for idempotent and non-idempotent operations. -/
theorem stubborn_set_retries_async_transient :
    ∀ (now deadline : Nat) (r : Rejection),
      classify (.callRejected r) = FailureKind.asyncTransient → now ≤ deadline →
      stubborn_set_decision now deadline (.callRejected r) = StepDecision.retryNow := by
  intro now deadline r hk hle
  have hr := classify_async_imp_retryable r hk
  simp only [stubborn_set_decision]
  rw [if_pos hr, if_neg (by omega)]

/-- Witness for C5 (amended) at a concrete asynchronous transient rejection. -/
theorem stubborn_set_retries_async_transient_witness :
    stubborn_set_decision 0 5 (.callRejected ⟨.sysTransient, false, "busy"⟩) =
      StepDecision.retryNow :=
  stubborn_set_retries_async_transient 0 5 ⟨.sysTransient, false, "busy"⟩ rfl (by decide)

/-- Counterexample to claim C6 as stated: with the owner calling, a decoding
failure on the ledger response makes icp_transfer trap (the panic of backend
lib.rs line 72) instead of returning a failure value to the application. -/
theorem icp_transfer_decode_failure_traps :
    icp_transfer OWNER (.error (.outcomeUnknown (.candidDecodingFailed "wrong type" "blob"))) =
      ⟨.decodeTrap, .trap ("Decoding failed: " ++ "wrong type"), 1⟩ := by
  unfold icp_transfer
  rw [if_neg (by simp)]

/-- Claim C6 as amended: every terminating run of the stubborn_set retry loop
returns a value (it never traps): success, or an error carrying a nonempty
diagnostic message, so no error is silently swallowed there; icp_transfer, in
contrast, deliberately traps on decode failures and callee faults, and the
returned errors carry a message but no structured kind or attempt count. -/
theorem stubborn_set_errors_reported :
    ∀ (deadline : Nat) (trace : List (Except CallError Unit × Nat))
      (res : MethodResult (Except String Unit)) (n : Nat),
      stubborn_set_run deadline trace = some (res, n) →
      res = .ret (.ok ()) ∨ ∃ msg, res = .ret (.error msg) ∧ msg ≠ "" := by
  intro deadline trace
  induction trace with
  | nil =>
    intro res n h
    simp [stubborn_set_run] at h
  | cons q rest ih =>
    intro res n h
    obtain ⟨o, now⟩ := q
    rcases o with e | v
    · simp only [stubborn_set_run] at h
      cases hd : stubborn_set_decision now deadline e with
      | stop msg =>
        rw [hd] at h
        simp at h
        obtain ⟨h1, h2⟩ := h
        right
        exact ⟨msg, h1.symm, stop_msg_nonempty now deadline _ msg hd⟩
      | retryNow =>
        rw [hd] at h
        cases hr : stubborn_set_run deadline rest with
        | none =>
          rw [hr] at h
          simp at h
        | some q' =>
          obtain ⟨res', m⟩ := q'
          rw [hr] at h
          simp at h
          obtain ⟨h1, h2⟩ := h
          rw [← h1]
          exact ih res' m hr
    · simp only [stubborn_set_run] at h
      simp at h
      exact Or.inl h.1.symm

/-- Witness for C6 (amended) at a concrete failing run. -/
theorem stubborn_set_errors_reported_witness :
    (MethodResult.ret (Except.error ("Failed to get the value and cannot retry: " ++ "bad"))
        : MethodResult (Except String Unit)) = .ret (.ok ()) ∨
    ∃ msg, (MethodResult.ret (Except.error ("Failed to get the value and cannot retry: " ++ "bad"))
        : MethodResult (Except String Unit)) = .ret (.error msg) ∧ msg ≠ "" :=
  stubborn_set_errors_reported 10
    [(.error (.callRejected ⟨.sysFatal, true, "bad"⟩), 0)] _ 1 rfl

/-- Claim C7: on any finite sequence of retryable rejections and SysUnknown
outcomes observed within the deadline, followed by a successful response,
stubborn_set returns success and consumes exactly one attempt per outcome:
the length of the failure sequence plus one. -/
theorem stubborn_set_terminates_with_attempt_count :
    ∀ (deadline tEnd : Nat) (fails : List (CallError × Nat)),
      (∀ p ∈ fails, retryable_or_unknown p.1 = true ∧ p.2 ≤ deadline) →
      stubborn_set_run deadline
        (fails.map (fun p => (Except.error p.1, p.2)) ++ [(Except.ok (), tEnd)])
        = some (.ret (.ok ()), fails.length + 1) := by
  intro deadline tEnd fails
  induction fails with
  | nil =>
    intro _
    simp [stubborn_set_run]
  | cons p ps ih =>
    intro h
    obtain ⟨e, now⟩ := p
    have hp := h (e, now) (List.mem_cons_self _ _)
    have hps : ∀ q ∈ ps, retryable_or_unknown q.1 = true ∧ q.2 ≤ deadline :=
      fun q hq => h q (List.mem_cons_of_mem _ hq)
    simp only [List.map_cons, List.cons_append, stubborn_set_run]
    rw [decision_retries_of_retryable now deadline e hp.1 hp.2]
    simp only [List.append_eq]
    rw [ih hps]
    simp [List.length_cons]

/-- Witness for C7 at a concrete two-failure outcome sequence. -/
theorem stubborn_set_terminates_with_attempt_count_witness :
    stubborn_set_run 10
      (([((.callRejected ⟨.sysTransient, false, "busy"⟩ : CallError), 1),
         ((.outcomeUnknown .sysUnknown : CallError), 2)]).map
          (fun p => (Except.error p.1, p.2)) ++ [(Except.ok (), 3)])
      = some (.ret (.ok ()), 3) :=
  stubborn_set_terminates_with_attempt_count 10 3
    [((.callRejected ⟨.sysTransient, false, "busy"⟩ : CallError), 1),
     ((.outcomeUnknown .sysUnknown : CallError), 2)] (by decide)

/-- Claim C8: every call attempt issued by the stubborn_set loop equals the
template built from the loop-invariant counter, method name and value, and
every attempt issued by the icrc1_transfer loop equals the template built
from the ledger principal, method name and the argument constructed once
before the loop: the payload never changes across retries. -/
theorem retry_payload_constant :
    (∀ (counter : String) (value deadline : Nat)
       (trace : List (Except CallError Unit × Nat)) (a : CallAttempt Nat),
       a ∈ stubborn_set_attempts counter value deadline trace →
       a = ⟨counter, "set", value⟩) ∧
    (∀ (ledger : String) (arg : TransferArg) (trace : List Icrc1Outcome)
       (a : CallAttempt TransferArg),
       a ∈ icrc1_transfer_attempts ledger arg trace →
       a = ⟨ledger, "icrc1_transfer", arg⟩) := by
  constructor
  · intro counter value deadline trace
    induction trace with
    | nil =>
      intro a ha
      simp [stubborn_set_attempts] at ha
    | cons q rest ih =>
      intro a ha
      obtain ⟨o, now⟩ := q
      rcases o with e | v
      · simp only [stubborn_set_attempts] at ha
        rcases List.mem_cons.1 ha with rfl | ha'
        · rfl
        · cases hd : stubborn_set_decision now deadline e with
          | stop msg =>
            rw [hd] at ha'
            simp at ha'
          | retryNow =>
            rw [hd] at ha'
            exact ih a ha'
      · simp only [stubborn_set_attempts] at ha
        simp at ha
        exact ha
  · intro ledger arg trace
    induction trace with
    | nil =>
      intro a ha
      simp [icrc1_transfer_attempts] at ha
    | cons o rest ih =>
      intro a ha
      simp only [icrc1_transfer_attempts] at ha
      rcases List.mem_cons.1 ha with rfl | ha'
      · rfl
      · cases hd : icrc1_transfer_iter o with
        | some r =>
          rw [hd] at ha'
          simp at ha'
        | none =>
          rw [hd] at ha'
          exact ih a ha'

/-- Witness for C8 on a concrete one-retry trace of each loop. -/
theorem retry_payload_constant_witness :
    ((⟨"ctr", "set", 5⟩ : CallAttempt Nat) ∈
        stubborn_set_attempts "ctr" 5 10
          [(.error (.outcomeUnknown .sysUnknown), 0), (.ok (), 1)]) ∧
    (⟨"ctr", "set", 5⟩ : CallAttempt Nat) = ⟨"ctr", "set", 5⟩ :=
  ⟨by decide,
   retry_payload_constant.1 "ctr" 5 10
     [(.error (.outcomeUnknown .sysUnknown), 0), (.ok (), 1)] _ (by decide)⟩

/-- Claim C9: the classification of failed outcomes is a total deterministic
function: every CallError value is assigned exactly one FailureKind. -/
theorem classify_total_deterministic :
    ∀ e : CallError, ∃! k : FailureKind, classify e = k :=
  fun e => ⟨classify e, rfl, fun _ hk => hk.symm⟩

/-- Claim C10: a caller other than the hard-coded owner is turned away by
icp_transfer with an immediate error, before any call to the ledger is
issued. -/
theorem icp_transfer_non_owner_rejected :
    ∀ (caller : String) (o : IcpOutcome), caller ≠ OWNER →
      icp_transfer caller o =
        ⟨.notOwner, .ret (.error "Only the owner can ask to transfer ICP"), 0⟩ := by
  intro c o h
  unfold icp_transfer
  rw [if_pos h]

/-- Witness for C10 at a concrete non-owner caller. -/
theorem icp_transfer_non_owner_rejected_witness :
    icp_transfer "2vxsx-fae" (.ok (.ok 7)) =
      ⟨.notOwner, .ret (.error "Only the owner can ask to transfer ICP"), 0⟩ :=
  icp_transfer_non_owner_rejected "2vxsx-fae" (.ok (.ok 7)) (by decide)

end IccRustDocs
